import Mathlib

/-!
Verification of the `deno_ops` attribute macro (src/ops/lib.rs).

The source is a code generator: it inspects an annotated Rust function
(its parameter tokens, return-type tokens and asyncness) and emits a
"trampoline" that the v8 engine invokes through its generic call
protocol.  This development embeds two layers of that source:

* the compile-time signature classifiers, which in the source are
  string/regex matches over `proc_macro2` token strings
  (`is_void`, `is_result`, `is_unit_result`, `is_future`,
  `is_mut_ref_opstate`, `is_rc_refcell_opstate`, `is_handle_scope`),
  modelled as executable functions over the same token strings; and

* the run-time behaviour of the generated trampoline bodies
  (`codegen_v8_async`, `codegen_v8_sync`, `codegen_args`,
  `codegen_arg`, `codegen_sync_ret`), modelled as interpreters
  (`runAsyncOp`, `runSyncOp`) that record an effect trace: which type
  errors are thrown, which dynamic arguments are read and decoded,
  whether the native function is invoked in the synchronous prologue,
  whether `queue_async_op` receives a task, which serialization calls
  happen and what is written to the return-value slot.

External collaborators (serde_v8, the v8 value representation, the
async queue, `OpState`) appear only through the narrow interfaces the
generated code uses: per-parameter decoders, an encoder, an ambient op
context with a numeric id and an error-classification function.
-/

namespace DenoOps

/-! ## Character/string primitives

The Rust source manipulates token streams as strings (`starts_with`,
`ends_with`-anchored regexes, `contains`, `find`, `trim_start_matches`,
`split_at`).  These primitives model those `str` operations over
`String`, viewed as its list of characters. -/

/-- Models Rust `str::starts_with`. -/
def strStartsWith (s pat : String) : Bool :=
  decide (pat.data <+: s.data)

/-- Models an end-anchored (`$`) regex literal match, i.e. Rust
`str::ends_with`. -/
def strEndsWith (s pat : String) : Bool :=
  decide (pat.data <:+ s.data)

/-- Models Rust `str::contains` for a string pattern. -/
def strContainsSub (s pat : String) : Bool :=
  decide (pat.data <:+: s.data)

/-- Models Rust `str::find`: index of the first occurrence of `pat`. -/
def findSubIndex (pat : List Char) : List Char → Option Nat
  | [] => if pat = [] then some 0 else none
  | c :: rest =>
    if pat <+: c :: rest then some 0
    else (findSubIndex pat rest).map (· + 1)

/-- Fuel-driven worker for `trim_start_matches`; each successful strip
removes at least one character, so `s.length` fuel is always enough. -/
def trimStartAux (pat : List Char) : Nat → List Char → List Char
  | 0, s => s
  | fuel + 1, s =>
    if pat ≠ [] ∧ pat <+: s then trimStartAux pat fuel (s.drop pat.length) else s

/-- Models Rust `str::trim_start_matches`: repeatedly remove the pattern
from the front while it is present. -/
def trim_start_matches (s pat : String) : String :=
  ⟨trimStartAux pat.data s.data.length s.data⟩

/-- Models the regex character class `\w` (as used for the lifetime name
in the `is_handle_scope` regex). -/
def isWordChar (c : Char) : Bool :=
  c.isAlphanum || c = '_'

/-! ## Signature classifiers (src/ops/lib.rs:394-443)

Each classifier takes the `proc_macro2` token string of a return type or
of a whole `FnArg` (binding pattern, colon, type), exactly the strings
the source matches on. -/

/-- From `is_void` (src/ops/lib.rs:394-396): the token stream of the
return type is empty. -/
def is_void (ty : String) : Bool := decide (ty = "")

/-- From `is_result` (src/ops/lib.rs:398-409): after stripping the
leading arrow the tokens start with `Result <`, or they contain
`:: Result <` with no `<` before it (a `Result` alias such as
`io :: Result`). -/
def is_result (ty : String) : Bool :=
  if strStartsWith (trim_start_matches ty "-> ") "Result <" then true
  else
    match findSubIndex (":: Result <").data ty.data with
    | some idx => !((ty.data.take idx).contains '<')
    | none => false

/-- From `is_unit_result` (src/ops/lib.rs:411-414): a `Result` whose
success payload is the unit type. -/
def is_unit_result (ty : String) : Bool :=
  is_result ty && strContainsSub ty "Result < ()"

/-- From `is_future` (src/ops/lib.rs:437-439): the return-type tokens
contain the anonymous-future shape. -/
def is_future (ty : String) : Bool :=
  strContainsSub ty "impl Future < Output ="

/-- From `is_mut_ref_opstate` (src/ops/lib.rs:416-420), the end-anchored
regex `: & mut (deno_core ::)? OpState$`. -/
def is_mut_ref_opstate (a : String) : Bool :=
  strEndsWith a ": & mut OpState" || strEndsWith a ": & mut deno_core :: OpState"

/-- From `is_rc_refcell_opstate` (src/ops/lib.rs:422-427), the
end-anchored regex `: Rc < RefCell < (deno_core ::)? OpState > >$`. -/
def is_rc_refcell_opstate (a : String) : Bool :=
  strEndsWith a ": Rc < RefCell < OpState > >" ||
  strEndsWith a ": Rc < RefCell < deno_core :: OpState > >"

/-- Mandatory part of the `is_handle_scope` regex, non-`deno_core`
variant. -/
def hsPat1 : String := ": & mut v8 :: HandleScope"

/-- Mandatory part of the `is_handle_scope` regex, `deno_core ::`
variant. -/
def hsPat2 : String := ": & mut deno_core :: v8 :: HandleScope"

/-- Models the optional end-anchored lifetime group of the
`is_handle_scope` regex (a space, `<`, a space, a tick, one or more
word characters, a space, `>`), matched against the reversed character
list of the tokens: the list must start with `>` and a space, then one
or more word characters, then the reversed pattern `revPat` (which ends
with the tick and `< `). -/
def hsLifetimeRev (revPat : List Char) (l : List Char) : Bool :=
  match l with
  | c1 :: c2 :: rest =>
    decide (c1 = '>') && decide (c2 = ' ') &&
    decide (rest.takeWhile isWordChar ≠ []) &&
    decide (revPat <+: rest.dropWhile isWordChar)
  | _ => false

/-- From `is_handle_scope` (src/ops/lib.rs:429-435), the end-anchored
regex `: & mut (deno_core ::)? v8 :: HandleScope( < 'lifetime >)?$`:
the tokens end with one of the two mandatory patterns, optionally
followed by a lifetime group. -/
def is_handle_scope (a : String) : Bool :=
  strEndsWith a hsPat1 || strEndsWith a hsPat2 ||
  hsLifetimeRev (hsPat1 ++ " < \x27").data.reverse a.data.reverse ||
  hsLifetimeRev (hsPat2 ++ " < \x27").data.reverse a.data.reverse

/-! ## Run-time data model

Dynamic (v8) values, decoded native values, encoded return values and
the structured results used by the completion channel.  The serde_v8
collaborators are parameters: each positional parameter carries its own
decoder, and the sync return path takes an encoder. -/

/-- A dynamic value as seen through `v8::FunctionCallbackArguments`.
`vInt` is a value for which `Local::<Integer>::try_from` succeeds;
`vUndefined` is what `args.get` yields past the end. -/
inductive V8Value where
  | vInt (n : Int)
  | vStr (s : String)
  | vUndefined
  | vOther (tag : String)
deriving DecidableEq

/-- A decoded native argument or return value. -/
inductive NativeVal where
  | unit
  | int (n : Int)
  | str (s : String)
deriving DecidableEq

/-- A value produced by `serde_v8::to_v8`: either the encoding of a
native value or the encoding of a structured `OpError` object. -/
inductive EncodedVal where
  | val (v : NativeVal)
  | errObj (cls msg : String)
deriving DecidableEq

/-- The payload handed to the async completion channel by
`_ops::to_op_result`: a success value, or a structured error holding
the class resolved by the op context and the error message. -/
inductive OpResult where
  | ok (v : NativeVal)
  | err (cls msg : String)
deriving DecidableEq

/-- Models `deno_core::_ops::to_op_result(get_class, result)`: `Ok` is
passed through, `Err(e)` becomes a structured error whose class is
resolved by the pluggable classification function.  Native errors are
modelled by their message string. -/
def to_op_result (getClass : String → String) : Except String NativeVal → OpResult
  | .ok v => .ok v
  | .error e => .err (getClass e) e

/-- The ambient `OpCtx` the trampoline reads through `args.data()`: the
numeric op id and the error-classification function held in the shared
state (`state.get_error_class_fn`). -/
structure OpCtx where
  id : Nat
  get_error_class_fn : String → String

/-- One native parameter, as the generator sees it: the `proc_macro2`
token string of the whole `FnArg` (matched by the special-shape
regexes), whether its binding pattern is `Pat::Wild`, and the
`serde_v8::from_v8` decoder for its type (an external collaborator,
hence a parameter of the model). -/
structure ParamModel where
  tokens : String
  wild : Bool
  dec : V8Value → Except String NativeVal

/-- The token a special parameter is bound to in the generated call:
`scope,` / `ctx.state.clone(),` / `&mut ctx.state.borrow_mut(),`. -/
inductive SpecialBinding where
  | scope
  | stateClone
  | stateBorrowMut
deriving DecidableEq

/-- From `scope_arg` (src/ops/lib.rs:245-251). -/
def scope_arg (p : ParamModel) : Option SpecialBinding :=
  if is_handle_scope p.tokens then some .scope else none

/-- From `opstate_arg` (src/ops/lib.rs:253-261): the `Rc<RefCell<_>>`
shape is checked first, then the `&mut` shape. -/
def opstate_arg (p : ParamModel) : Option SpecialBinding :=
  if is_rc_refcell_opstate p.tokens then some .stateClone
  else if is_mut_ref_opstate p.tokens then some .stateBorrowMut
  else none

/-- Models Rust `Iterator::map_while`: map while the function yields
`some`, stop at the first `none`. -/
def mapWhileOpt (f : α → Option β) : List α → List β
  | [] => []
  | a :: as =>
    match f a with
    | some b => b :: mapWhileOpt f as
    | none => []

/-- The per-parameter closure of the `map_while` in `codegen_v8_async`
(src/ops/lib.rs:165-167) and `codegen_v8_sync` (src/ops/lib.rs:274-276):
`(if is_v8 { scope_arg(a) } else { None }).or_else(|| opstate_arg(a))`. -/
def specialArgBinding (isV8 : Bool) (p : ParamModel) : Option SpecialBinding :=
  match (if isV8 then scope_arg p else none) with
  | some b => some b
  | none => opstate_arg p

/-- The `special_args` vector (src/ops/lib.rs:161-168, 270-277). -/
def special_args (isV8 : Bool) (ps : List ParamModel) : List SpecialBinding :=
  mapWhileOpt (specialArgBinding isV8) ps

/-- `rust_i0`, the length of the special prefix (src/ops/lib.rs:169,
278). -/
def rust_i0 (isV8 : Bool) (ps : List ParamModel) : Nat :=
  (special_args isV8 ps).length

/-- Worker for `codegen_args` (src/ops/lib.rs:303-324): the enumerated
parameters past the special prefix, each paired with its dynamic
argument index `v8_i0 + i`. -/
def codegen_args_decls (v8i0 : Nat) : List ParamModel → List (Nat × ParamModel)
  | [] => []
  | p :: ps => (v8i0, p) :: codegen_args_decls (v8i0 + 1) ps

/-- From `codegen_args` (src/ops/lib.rs:303-324): skip the `rust_i0`
special parameters, enumerate the rest, and give position `i` the
dynamic index `v8_i0 + i`. -/
def codegen_args (ps : List ParamModel) (rustI0 v8i0 : Nat) : List (Nat × ParamModel) :=
  codegen_args_decls v8i0 (ps.drop rustI0)

/-- Models `v8::FunctionCallbackArguments::get`, which yields
`undefined` past the end of the argument list. -/
def getArg (args : List V8Value) (i : Nat) : V8Value :=
  args.getD i .vUndefined

/-- The type-error message raised by a generated `codegen_arg` decl on
decode failure (src/ops/lib.rs:347). -/
def argErrMsg (idx : Nat) (e : String) : String :=
  "Error parsing args at position " ++ toString idx ++ ": " ++ e

/-- Runs the sequence of argument decls emitted by `codegen_arg`
(src/ops/lib.rs:326-352) over the dynamic arguments, in order.  A
wildcard-pattern parameter takes the fast path `let ident = ();` and
neither reads nor decodes anything; any other parameter reads the
dynamic argument at its index and decodes it, and the first decode
failure aborts with a `throw_type_error` message.  Returns the list of
dynamic indices actually read, and either the decoded values or the
thrown message. -/
def runArgDecls (args : List V8Value) :
    List (Nat × ParamModel) → List Nat × Except String (List NativeVal)
  | [] => ([], .ok [])
  | (idx, p) :: rest =>
    if p.wild then
      ((runArgDecls args rest).1, (runArgDecls args rest).2.map (NativeVal.unit :: ·))
    else
      match p.dec (getArg args idx) with
      | .ok v =>
        (idx :: (runArgDecls args rest).1, (runArgDecls args rest).2.map (v :: ·))
      | .error e => ([idx], .error (argErrMsg idx e))

/-- Models the Display text of the error produced when
`v8::Local::<v8::Integer>::try_from` fails on the promise-id argument;
the exact text comes from the external v8 crate, not this repository. -/
def v8IntegerCastError : String := "expected v8 Integer"

/-- The native function as invoked by the async trampoline.  The
constructor records the shape pair the generated code was specialized
on, which in Rust is forced by the function itself: `asyncness` (was
the function declared `async`) and `is_result(f.sig.output)`.  Futures
are represented by their resolved values.

* `asyncRes`: `async fn` whose output is a `Result`.
* `asyncPlain`: `async fn` whose output is a plain value.
* `syncFutRes`: non-`async` fn returning
  `Result<impl Future<Output = Result<_, _>>, _>`; the outer `Except`
  is the immediate launch result, the inner one what the `Ok` future
  resolves to.
* `syncFutPlain`: non-`async` fn returning a plain
  `impl Future<Output = _>`. -/
inductive OpImpl where
  | asyncRes (f : List NativeVal → Except String NativeVal)
  | asyncPlain (f : List NativeVal → NativeVal)
  | syncFutRes (f : List NativeVal → Except String (Except String NativeVal))
  | syncFutPlain (f : List NativeVal → NativeVal)

/-- Effect trace of one invocation of the body generated by
`codegen_v8_async` (src/ops/lib.rs:154-243).

* `thrown`: message of a `throw_type_error` that aborted the call.
* `reads`: dynamic-argument indices read and decoded, in order.
* `trackedAsync`: whether `state.tracker.track_async(op_id)` ran.
* `calledInPrologue`: whether `Self::call` was invoked during the
  synchronous prologue (it is exactly when the `pre_result` binding of
  the non-`async` shapes runs, src/ops/lib.rs:180-183).
* `queued`: `some r` when `queue_async_op` was handed a task,
  where `r` is the `(promise_id, op_id, OpResult)` triple that task
  resolves to; `none` when no task was ever scheduled.
* `innerFutAwaited`: for the `syncFutRes` shape, whether the future
  inside `Ok(fut)` was awaited (src/ops/lib.rs:192). -/
structure AsyncTrace where
  thrown : Option String
  reads : List Nat
  trackedAsync : Bool
  calledInPrologue : Bool
  queued : Option (Int × Nat × OpResult)
  innerFutAwaited : Bool
deriving DecidableEq

/-- Interpreter for the body generated by `codegen_v8_async`
(src/ops/lib.rs:154-243), in source order:

1. read the ambient `OpCtx` and its id (lines 206-210);
2. decode dynamic argument 0 as the promise id via
   `Local::<Integer>::try_from`; on failure throw
   `invalid promise id: ...` and return (lines 212-223) — the `as
   PromiseId` cast is modelled as the identity, the width of
   `PromiseId` being defined outside this repository;
3. run the argument decls produced by `codegen_args(.., rust_i0, 1)`
   (line 172, 225); a decode failure throws and returns;
4. clone the state, `track_async` the op id and snapshot
   `get_error_class_fn` (lines 227-234);
5. for the non-`async` shapes run `pre_result`, invoking `Self::call`
   in the prologue (lines 180-183);
6. unconditionally hand `queue_async_op` the async block; the block
   computes the `(promise_id, op_id, to_op_result ..)` triple, with the
   `syncFutRes` shape short-circuiting on the outer `Err` inside the
   queued block (lines 185-201, 236-242). -/
def runAsyncOp (ctx : OpCtx) (isV8 : Bool) (ps : List ParamModel)
    (impl : OpImpl) (args : List V8Value) : AsyncTrace :=
  let opId := ctx.id
  match getArg args 0 with
  | .vInt pid =>
    match runArgDecls args (codegen_args ps (rust_i0 isV8 ps) 1) with
    | (reads, .error m) => ⟨some m, reads, false, false, none, false⟩
    | (reads, .ok vals) =>
      let getClass := ctx.get_error_class_fn
      match impl with
      | .asyncRes f =>
        ⟨none, reads, true, false,
          some (pid, opId, to_op_result getClass (f vals)), false⟩
      | .asyncPlain f =>
        ⟨none, reads, true, false,
          some (pid, opId, to_op_result getClass (.ok (f vals))), false⟩
      | .syncFutRes f =>
        match f vals with
        | .error e =>
          ⟨none, reads, true, true,
            some (pid, opId, to_op_result getClass (.error e)), false⟩
        | .ok innerRes =>
          ⟨none, reads, true, true,
            some (pid, opId, to_op_result getClass innerRes), true⟩
      | .syncFutPlain f =>
        ⟨none, reads, true, true,
          some (pid, opId, to_op_result getClass (.ok (f vals))), false⟩
  | _ => ⟨some ("invalid promise id: " ++ v8IntegerCastError), [], false, false, none, false⟩

/-- Effect trace of the return-encoding fragment generated by
`codegen_sync_ret`: how many `serde_v8::to_v8` calls ran, what (if
anything) was written to the return-value slot, and a thrown
serialization type error, if any. -/
structure RetTrace where
  encodeCalls : Nat
  rvWrite : Option EncodedVal
  thrown : Option String
deriving DecidableEq

/-- The native result of a synchronous op: a plain value, or a
`Result` (with the unit success payload represented by
`NativeVal.unit`). -/
inductive SyncRet where
  | plain (v : NativeVal)
  | res (r : Except String NativeVal)

/-- Interpreter for the fragment generated by `codegen_sync_ret`
(src/ops/lib.rs:354-392):

* `is_void` output: nothing is encoded or written;
* otherwise the `ok_block` is empty for a `is_unit_result` output, and
  for any other output encodes the value, setting the return slot on
  success and throwing `Error serializing return: ...` on failure;
* a non-`Result` output runs the `ok_block` on the result directly; a
  `Result` output matches: `Ok` runs the `ok_block`, `Err` wraps the
  error with `OpError::new(op_state.get_error_class_fn, err)` and
  writes its encoding (an infallible `to_v8(..).unwrap()`) to the slot.

The two `plain`/`res` mismatch fallbacks are unreachable when the
runtime result has the type the generator saw, which Rust guarantees. -/
def codegen_sync_ret_run (getClass : String → String)
    (enc : NativeVal → Except String EncodedVal)
    (output : String) (result : SyncRet) : RetTrace :=
  if is_void output then ⟨0, none, none⟩
  else
    let okBlock : NativeVal → RetTrace := fun v =>
      if is_unit_result output then ⟨0, none, none⟩
      else
        match enc v with
        | .ok ev => ⟨1, some ev, none⟩
        | .error e => ⟨1, none, some ("Error serializing return: " ++ e)⟩
    if is_result output then
      match result with
      | .res (.ok v) => okBlock v
      | .res (.error e) => ⟨1, some (.errObj (getClass e) e), none⟩
      | .plain _ => ⟨0, none, none⟩
    else
      match result with
      | .plain v => okBlock v
      | .res _ => ⟨0, none, none⟩

/-- Effect trace of one invocation of the body generated by
`codegen_v8_sync` (src/ops/lib.rs:263-301): thrown type error, dynamic
indices read, whether `Self::call` ran, whether
`tracker.track_sync(ctx.id)` ran, and the return-encoding effects. -/
structure SyncTrace where
  thrown : Option String
  reads : List Nat
  nativeCalled : Bool
  trackedSync : Bool
  encodeCalls : Nat
  rvWrite : Option EncodedVal
deriving DecidableEq

/-- Interpreter for the body generated by `codegen_v8_sync`
(src/ops/lib.rs:263-301), in source order: run the argument decls
produced by `codegen_args(.., rust_i0, 0)` (line 281) — a decode
failure throws and returns before anything else — then invoke
`Self::call`, run `tracker.track_sync(ctx.id)`, and finally the
`codegen_sync_ret` fragment. -/
def runSyncOp (ctx : OpCtx) (isV8 : Bool) (ps : List ParamModel)
    (output : String) (f : List NativeVal → SyncRet)
    (enc : NativeVal → Except String EncodedVal)
    (args : List V8Value) : SyncTrace :=
  match runArgDecls args (codegen_args ps (rust_i0 isV8 ps) 0) with
  | (reads, .error m) => ⟨some m, reads, false, false, 0, none⟩
  | (reads, .ok vals) =>
    let result := f vals
    let rt := codegen_sync_ret_run ctx.get_error_class_fn enc output result
    ⟨rt.thrown, reads, true, true, rt.encodeCalls, rt.rvWrite⟩

/-- The option set of the annotation (src/ops/lib.rs:43-47). -/
structure MacroArgs where
  is_unstable : Bool
  is_v8 : Bool
deriving DecidableEq

/-- From the `syn::parse::Parse` impl for `MacroArgs`
(src/ops/lib.rs:49-70): every identifier must come from the closed set,
otherwise parsing fails with the fixed message; the two flags record
membership. -/
def parseMacroArgs (vars : List String) : Except String MacroArgs :=
  if vars.all (fun v => v = "unstable" || v = "v8") then
    .ok ⟨vars.contains "unstable", vars.contains "v8"⟩
  else
    .error "Ops expect #[op] or #[op(unstable)]"

/-- The analysed shape of one annotated function, as read off
`syn::ItemFn` by `op` (src/ops/lib.rs:73-104): its identifier, whether
`fn.sig.asyncness` is present, the token string of `fn.sig.output`, and
its parameters. -/
structure FuncModel where
  ident : String
  asyncness : Bool
  output : String
  params : List ParamModel

/-- The async verdict (src/ops/lib.rs:98-99):
`asyncness || is_future(&func.sig.output)`. -/
def isAsyncOp (f : FuncModel) : Bool :=
  f.asyncness || is_future f.output

/-- Which trampoline body `op` generates. -/
inductive TrampolineKind where
  | async
  | sync
deriving DecidableEq

/-- The dispatch between `codegen_v8_async` and `codegen_v8_sync`
(src/ops/lib.rs:100-104). -/
def trampolineKind (f : FuncModel) : TrampolineKind :=
  if isAsyncOp f then .async else .sync

/-- The emitted `OpDecl` metadata (the callback pointer is the
trampoline itself and is not part of this record). -/
structure OpDecl where
  name : String
  enabled : Bool
  is_async : Bool
  is_unstable : Bool
  is_v8 : Bool
deriving DecidableEq

/-- From the generated `decl()` (src/ops/lib.rs:127-136): the stable
name is `stringify!(#name)`, `enabled` is the literal `true`, and the
three flags are the async verdict and the two annotation options. -/
def decl (f : FuncModel) (m : MacroArgs) : OpDecl :=
  ⟨f.ident, true, isAsyncOp f, m.is_unstable, m.is_v8⟩

/-! ## Concrete fixtures

Small concrete decoders, parameters, contexts and functions used to
evaluate the theorems below on closed inputs. -/

/-- A decoder that always succeeds with the unit value. -/
def decOkUnit : V8Value → Except String NativeVal := fun _ => .ok .unit

/-- A decoder for an integer-typed parameter. -/
def decInt : V8Value → Except String NativeVal
  | .vInt n => .ok (.int n)
  | _ => .error "expected i32"

/-- A decoder that always fails. -/
def decFail : V8Value → Except String NativeVal := fun _ => .error "bad value"

/-- A parameter shaped `state : &mut OpState`. -/
def opstateParam : ParamModel := ⟨"state : & mut OpState", false, decOkUnit⟩

/-- An ordinary serialized integer parameter. -/
def intParam : ParamModel := ⟨"x : u32", false, decInt⟩

/-- An ordinary serialized parameter whose decode always fails. -/
def failParam : ParamModel := ⟨"x : u32", false, decFail⟩

/-- A parameter with a wildcard binding pattern. -/
def wildParam : ParamModel := ⟨"_ : u32", true, decOkUnit⟩

/-- A parameter shaped `scope : &mut v8::HandleScope`. -/
def scopeParam : ParamModel := ⟨"scope : & mut v8 :: HandleScope", false, decOkUnit⟩

/-- A concrete op context: op id 7, every error classified `TypeError`. -/
def ctxW : OpCtx := ⟨7, fun _ => "TypeError"⟩

/-- A concrete encoder that never fails. -/
def encW : NativeVal → Except String EncodedVal := fun v => .ok (.val v)

/-- A concrete non-`async` function model whose return type is an
anonymous future. -/
def funcW : FuncModel :=
  ⟨"op_foo", false, "-> impl Future < Output = u32 >", []⟩

/-! ## Helper lemmas -/

theorem prefixHeadEq {l₁ l₂ : List Char} (h : l₁ <+: l₂) (hne : l₁ ≠ []) :
    l₂.head? = l₁.head? := by
  obtain ⟨t, rfl⟩ := h
  cases l₁ with
  | nil => exact absurd rfl hne
  | cons a l => rfl

theorem suffixComparable {l₁ l₂ l₃ : List Char} (h1 : l₁ <:+ l₃) (h2 : l₂ <:+ l₃) :
    l₁ <:+ l₂ ∨ l₂ <:+ l₁ := by
  have p1 := List.reverse_prefix.mpr h1
  have p2 := List.reverse_prefix.mpr h2
  rcases List.prefix_or_prefix_of_prefix p1 p2 with h | h
  · exact Or.inl (by rwa [ List.reverse_prefix] at h)
  · exact Or.inr (by rwa [ List.reverse_prefix] at h)

theorem suffixClash (a b t : String)
    (hne : (decide (a.data <:+ b.data) || decide (b.data <:+ a.data)) = false)
    (ha : a.data <:+ t.data) (hb : b.data <:+ t.data) : False := by
  rcases suffixComparable ha hb with h | h <;> simp [h] at hne

theorem takeWhileNeNilHead {p : Char → Bool} {l : List Char}
    (h : l.takeWhile p ≠ []) : ∃ c rest, l = c :: rest ∧ p c = true := by
  cases l with
  | nil => simp [List.takeWhile] at h
  | cons c rest =>
    by_cases hc : p c
    · exact ⟨c, rest, rfl, hc⟩
    · simp [List.takeWhile_cons, hc] at h

theorem codegenArgsDeclsGet (l : List ParamModel) (v j : Nat) :
    (codegen_args_decls v l)[j]? = l[j]?.map (fun p => (v + j, p)) := by
  induction l generalizing v j with
  | nil => simp [codegen_args_decls]
  | cons p ps ih =>
    cases j with
    | zero => simp [codegen_args_decls]
    | succ j =>
      simp only [codegen_args_decls, List.getElem?_cons_succ, ih (v + 1) j]
      have : v + 1 + j = v + (j + 1) := by omega
      rw [this]

theorem codegenArgsDeclsMapFst (v : Nat) (l : List ParamModel) :
    (codegen_args_decls v l).map Prod.fst = List.range' v l.length := by
  induction l generalizing v with
  | nil => simp [codegen_args_decls]
  | cons p ps ih => simp [codegen_args_decls, ih (v + 1), List.range']

theorem strContainsSubAppendMid (a b c : String) :
    strContainsSub (a ++ b ++ c) b = true := by
  rw [strContainsSub, decide_eq_true_eq]
  exact ⟨a.data, c.data, by simp [String.data_append]⟩

theorem strContainsSubAppendRight (a b : String) :
    strContainsSub (a ++ b) b = true := by
  rw [strContainsSub, decide_eq_true_eq]
  exact ⟨a.data, [], by simp [String.data_append]⟩

theorem argErrMsgContainsIdx (idx : Nat) (e : String) :
    strContainsSub (argErrMsg idx e) (toString idx) = true := by
  have h := strContainsSubAppendMid "Error parsing args at position " (toString idx) (": " ++ e)
  simpa [argErrMsg, String.append_assoc] using h

theorem argErrMsgContainsErr (idx : Nat) (e : String) :
    strContainsSub (argErrMsg idx e) e = true :=
  strContainsSubAppendRight ("Error parsing args at position " ++ toString idx ++ ": ") e

theorem runArgDeclsFail (args : List V8Value) (pre : List (Nat × ParamModel))
    (idx : Nat) (p : ParamModel) (rest : List (Nat × ParamModel))
    (r0 : List Nat) (vs0 : List NativeVal) (e : String)
    (h0 : runArgDecls args pre = (r0, .ok vs0)) (hw : p.wild = false)
    (hd : p.dec (getArg args idx) = .error e) :
    runArgDecls args (pre ++ (idx, p) :: rest) =
      (r0 ++ [idx], .error (argErrMsg idx e)) := by
  induction pre generalizing r0 vs0 with
  | nil =>
    simp only [runArgDecls] at h0
    injection h0 with ha hb
    subst ha
    simp [runArgDecls, hw, hd]
  | cons hd0 tl ih =>
    obtain ⟨i0, p0⟩ := hd0
    rw [List.cons_append]
    rcases htl : runArgDecls args tl with ⟨rt, resT⟩
    by_cases hw0 : p0.wild
    · simp only [runArgDecls, hw0, if_true, htl] at h0 ⊢
      cases resT with
      | error m => simp [Except.map] at h0
      | ok vsT =>
        simp only [Except.map] at h0
        injection h0 with ha hb
        subst ha
        rw [ih rt vsT htl]
        simp [Except.map]
    · cases hdec0 : p0.dec (getArg args i0) with
      | error e0 =>
        simp only [runArgDecls, hw0, if_false, hdec0, htl] at h0
        simp at h0
      | ok v =>
        simp only [runArgDecls, hw0, if_false, hdec0, htl] at h0 ⊢
        cases resT with
        | error m => simp [Except.map] at h0
        | ok vsT =>
          simp only [Except.map] at h0
          injection h0 with ha hb
          subst ha
          rw [ih rt vsT htl]
          simp [Except.map]

theorem isUnitResultFacts {output : String} (h : is_unit_result output = true) :
    is_result output = true ∧ is_void output = false := by
  rw [is_unit_result, Bool.and_eq_true] at h
  refine ⟨h.1, ?_⟩
  cases hv : is_void output with
  | false => rfl
  | true =>
    exfalso
    rw [is_void, decide_eq_true_eq] at hv
    subst hv
    exact absurd h.1 (by decide)

theorem hsLifetimeRevSpec {revPat l : List Char} (h : hsLifetimeRev revPat l = true) :
    ∃ rest, l = '>' :: ' ' :: rest ∧ rest.takeWhile isWordChar ≠ [] ∧
      revPat <+: rest.dropWhile isWordChar := by
  cases l with
  | nil => simp [hsLifetimeRev] at h
  | cons c1 l1 =>
    cases l1 with
    | nil => simp [hsLifetimeRev] at h
    | cons c2 rest =>
      rw [hsLifetimeRev] at h
      simp only [Bool.and_eq_true, decide_eq_true_eq] at h
      obtain ⟨⟨⟨h1, h2⟩, h3⟩, h4⟩ := h
      subst h1
      subst h2
      exact ⟨rest, rfl, h3, h4⟩

theorem revHeadClash {t pat : String} {rest : List Char}
    (hrev : t.data.reverse = '>' :: ' ' :: rest)
    (hsuf : pat.data <:+ t.data)
    (hne : pat.data.reverse ≠ [])
    (hhd : pat.data.reverse.head? ≠ some '>') : False := by
  have hp : pat.data.reverse <+: t.data.reverse := List.reverse_prefix.mpr hsuf
  rw [hrev] at hp
  have hh := prefixHeadEq hp hne
  exact hhd hh.symm

theorem revDrop2Clash {t pat : String} {rest : List Char}
    (hrev : t.data.reverse = '>' :: ' ' :: rest)
    (hsuf : pat.data <:+ t.data)
    (hwne : rest.takeWhile isWordChar ≠ [])
    (hne2 : pat.data.reverse.drop 2 ≠ [])
    (hhd2 : (pat.data.reverse.drop 2).head? = some '>') : False := by
  have hp : pat.data.reverse <+: t.data.reverse := List.reverse_prefix.mpr hsuf
  rw [hrev] at hp
  have hp2 : pat.data.reverse.drop 2 <+: rest := hp.drop 2
  obtain ⟨c, rest2, hr2, hc⟩ := takeWhileNeNilHead hwne
  have hh := prefixHeadEq hp2 hne2
  rw [hr2, hhd2] at hh
  injection hh with hc2
  subst hc2
  exact absurd hc (by decide)

theorem handleScopeNotOpstate (t : String) (h : is_handle_scope t = true) :
    is_mut_ref_opstate t = false ∧ is_rc_refcell_opstate t = false := by
  rw [is_handle_scope] at h
  simp only [Bool.or_eq_true, strEndsWith, decide_eq_true_eq] at h
  constructor
  · cases hmv : is_mut_ref_opstate t with
    | false => rfl
    | true =>
      exfalso
      rw [is_mut_ref_opstate] at hmv
      simp only [Bool.or_eq_true, strEndsWith, decide_eq_true_eq] at hmv
      rcases h with ((h | h) | h) | h
      · rcases hmv with hm | hm
        · exact suffixClash hsPat1 ": & mut OpState" t (by decide) h hm
        · exact suffixClash hsPat1 ": & mut deno_core :: OpState" t (by decide) h hm
      · rcases hmv with hm | hm
        · exact suffixClash hsPat2 ": & mut OpState" t (by decide) h hm
        · exact suffixClash hsPat2 ": & mut deno_core :: OpState" t (by decide) h hm
      · obtain ⟨rest, hrev, hwne, _⟩ := hsLifetimeRevSpec h
        rcases hmv with hm | hm
        · exact revHeadClash hrev hm (by decide) (by decide)
        · exact revHeadClash hrev hm (by decide) (by decide)
      · obtain ⟨rest, hrev, hwne, _⟩ := hsLifetimeRevSpec h
        rcases hmv with hm | hm
        · exact revHeadClash hrev hm (by decide) (by decide)
        · exact revHeadClash hrev hm (by decide) (by decide)
  · cases hrv : is_rc_refcell_opstate t with
    | false => rfl
    | true =>
      exfalso
      rw [is_rc_refcell_opstate] at hrv
      simp only [Bool.or_eq_true, strEndsWith, decide_eq_true_eq] at hrv
      rcases h with ((h | h) | h) | h
      · rcases hrv with hm | hm
        · exact suffixClash hsPat1 ": Rc < RefCell < OpState > >" t (by decide) h hm
        · exact suffixClash hsPat1 ": Rc < RefCell < deno_core :: OpState > >" t
            (by decide) h hm
      · rcases hrv with hm | hm
        · exact suffixClash hsPat2 ": Rc < RefCell < OpState > >" t (by decide) h hm
        · exact suffixClash hsPat2 ": Rc < RefCell < deno_core :: OpState > >" t
            (by decide) h hm
      · obtain ⟨rest, hrev, hwne, _⟩ := hsLifetimeRevSpec h
        rcases hrv with hm | hm
        · exact revDrop2Clash hrev hm hwne (by decide) (by decide)
        · exact revDrop2Clash hrev hm hwne (by decide) (by decide)
      · obtain ⟨rest, hrev, hwne, _⟩ := hsLifetimeRevSpec h
        rcases hrv with hm | hm
        · exact revDrop2Clash hrev hm hwne (by decide) (by decide)
        · exact revDrop2Clash hrev hm hwne (by decide) (by decide)

/-! ## Claims -/

/-- C10: for every annotated function, regardless of options, signature
shape or async verdict, the emitted `OpDecl` has `enabled = true`
(src/ops/lib.rs:131 hardcodes the literal). -/
theorem c10_decl_always_enabled (f : FuncModel) (m : MacroArgs) :
    (decl f m).enabled = true := rfl

/-- C8: the emitted declaration carries the function identifier
unmodified as its name, the `is_unstable` and `is_v8` flags exactly as
in the annotation option set, and `is_async` equal to the classifier
verdict `asyncness || is_future output`. -/
theorem c8_decl_fields (f : FuncModel) (m : MacroArgs) :
    (decl f m).name = f.ident ∧ (decl f m).is_async = isAsyncOp f ∧
    (decl f m).is_unstable = m.is_unstable ∧ (decl f m).is_v8 = m.is_v8 :=
  ⟨rfl, rfl, rfl, rfl⟩

/-- C6: the asynchronous trampoline body is generated exactly when the
function is declared `async` or its return-type tokens contain the
anonymous-future shape `impl Future < Output =` (which is how the
source detects an `impl Future<Output = ...>` return). -/
theorem c6_async_dispatch (f : FuncModel) :
    trampolineKind f = .async ↔
      (f.asyncness = true ∨ strContainsSub f.output "impl Future < Output =" = true) := by
  rw [trampolineKind, isAsyncOp, is_future]
  by_cases ha : f.asyncness = true <;>
    by_cases hf : strContainsSub f.output "impl Future < Output =" = true <;>
      simp [ha, hf]

/-- Witness for C6 at a concrete non-`async` function whose return type
is an anonymous future. -/
theorem c6_async_dispatch_witness : trampolineKind funcW = .async :=
  (c6_async_dispatch funcW).mpr (Or.inr (by decide))

/-- C4: the parameter at zero-based position `j` among the parameters
past the special prefix (of length `rust_i0`) is assigned dynamic
argument index `1 + j` by the asynchronous trampoline
(`codegen_args(.., rust_i0, 1)`, src/ops/lib.rs:172) and `0 + j` by the
synchronous one (`codegen_args(.., rust_i0, 0)`, src/ops/lib.rs:281). -/
theorem c4_dynamic_arg_indices (isV8 : Bool) (ps : List ParamModel) (j : Nat)
    (h : j < (ps.drop (rust_i0 isV8 ps)).length) :
    (codegen_args ps (rust_i0 isV8 ps) 1)[j]? =
      some (1 + j, (ps.drop (rust_i0 isV8 ps))[j]) ∧
    (codegen_args ps (rust_i0 isV8 ps) 0)[j]? =
      some (0 + j, (ps.drop (rust_i0 isV8 ps))[j]) := by
  constructor <;> rw [codegen_args, codegenArgsDeclsGet] <;>
    simp [List.getElem?_eq_getElem h]

/-- Witness for C4: with one special `OpState` parameter and one
serialized parameter, the serialized one gets index 1 (async) and 0
(sync). -/
theorem c4_dynamic_arg_indices_witness :
    (codegen_args [opstateParam, intParam]
        (rust_i0 false [opstateParam, intParam]) 1)[0]?.map Prod.fst = some 1 ∧
    (codegen_args [opstateParam, intParam]
        (rust_i0 false [opstateParam, intParam]) 0)[0]?.map Prod.fst = some 0 := by
  have h := c4_dynamic_arg_indices false [opstateParam, intParam] 0 (by decide)
  rw [h.1, h.2]
  exact ⟨rfl, rfl⟩

/-- C3: whenever dynamic argument 0 is absent (hence `undefined`) or
not a v8 integer, the asynchronous trampoline throws the
`invalid promise id` type error and returns with no dynamic argument
read or decoded, no native invocation, no `track_async`, and no task
handed to `queue_async_op`. -/
theorem c3_invalid_promise_id_aborts (ctx : OpCtx) (isV8 : Bool)
    (ps : List ParamModel) (impl : OpImpl) (args : List V8Value)
    (h : ∀ n : Int, getArg args 0 ≠ .vInt n) :
    runAsyncOp ctx isV8 ps impl args =
      ⟨some ("invalid promise id: " ++ v8IntegerCastError), [], false, false, none, false⟩ := by
  cases hv : getArg args 0 with
  | vInt n => exact absurd hv (h n)
  | vStr s => simp [runAsyncOp, hv]
  | vUndefined => simp [runAsyncOp, hv]
  | vOther tag => simp [runAsyncOp, hv]

/-- Witness for C3 at a concrete call whose argument 0 is a string. -/
theorem c3_invalid_promise_id_aborts_witness :
    runAsyncOp ctxW false [] (.asyncPlain fun _ => .unit) [.vStr "nope"] =
      ⟨some ("invalid promise id: " ++ v8IntegerCastError), [], false, false, none, false⟩ :=
  c3_invalid_promise_id_aborts ctxW false [] (.asyncPlain fun _ => .unit)
    [.vStr "nope"] (fun n h => by simp [getArg] at h)

/-- C7: a wildcard-pattern parameter is bound to the unit value by the
fast path `let ident = ();` without reading or decoding any dynamic
argument (the reads and the outcome of the remaining decls are
untouched apart from the prepended unit binding), yet it still occupies
a dynamic-argument slot: the index sequence assigned by `codegen_args`
depends only on the number of parameters, so later parameters receive
the same indices as if the wildcard parameter were serialized. -/
theorem c7_wildcard_param (args : List V8Value) (idx : Nat) (p : ParamModel)
    (rest : List (Nat × ParamModel)) (v0 : Nat) (ps qs : List ParamModel)
    (hw : p.wild = true) (hlen : ps.length = qs.length) :
    runArgDecls args ((idx, p) :: rest) =
      ((runArgDecls args rest).1,
        (runArgDecls args rest).2.map (NativeVal.unit :: ·)) ∧
    (codegen_args_decls v0 ps).map Prod.fst =
      (codegen_args_decls v0 qs).map Prod.fst := by
  constructor
  · rcases hrr : runArgDecls args rest with ⟨r, res⟩
    simp [runArgDecls, hw, hrr]
  · rw [codegenArgsDeclsMapFst, codegenArgsDeclsMapFst, hlen]

/-- Witness for C7: a wildcard parameter against an empty argument
list, and the index sequences of a wildcard versus a serialized
parameter list. -/
theorem c7_wildcard_param_witness :
    runArgDecls [] [(1, wildParam)] =
      ((runArgDecls [] ([] : List (Nat × ParamModel))).1,
        (runArgDecls [] ([] : List (Nat × ParamModel))).2.map (NativeVal.unit :: ·)) ∧
    (codegen_args_decls 1 [wildParam]).map Prod.fst =
      (codegen_args_decls 1 [intParam]).map Prod.fst :=
  c7_wildcard_param [] 1 wildParam [] 1 [wildParam] [intParam] rfl rfl

/-- C1 (counterexample): a non-`async` op returning a fallible future
whose immediate invocation yields `Err` still hands `queue_async_op` a
task — the generated early return on `Err(e)` sits inside the queued
async block (src/ops/lib.rs:190-198), which is queued unconditionally
(src/ops/lib.rs:236-242) — contradicting the claim that on `Err` the
error is delivered without ever scheduling a task and that a task is
scheduled only on `Ok(fut)`.  The prologue invocation itself does
happen, and the queued task resolves to the encoded error triple. -/
theorem c1_err_still_queues_counterexample :
    (runAsyncOp ctxW false [] (.syncFutRes fun _ => .error "boom") [.vInt 42]).queued =
      some (42, 7, .err "TypeError" "boom") ∧
    (runAsyncOp ctxW false [] (.syncFutRes fun _ => .error "boom") [.vInt 42]).calledInPrologue =
      true := ⟨rfl, rfl⟩

/-- C1 (amended): for a non-`async` function returning a fallible
future, once the promise id and the arguments decode, the function is
invoked during the synchronous prologue and a task is always handed to
`queue_async_op`; when the invocation yields `Err(e)` the queued task
resolves immediately — without awaiting any inner future — to
`(promise_id, op_id, encoded_error)`, and the inner future is awaited
only when the invocation yields `Ok(fut)`. -/
theorem c1_fallible_future_launch (ctx : OpCtx) (isV8 : Bool)
    (ps : List ParamModel)
    (f : List NativeVal → Except String (Except String NativeVal))
    (args : List V8Value) (pid : Int) (reads : List Nat) (vals : List NativeVal)
    (hpid : getArg args 0 = .vInt pid)
    (hdec : runArgDecls args (codegen_args ps (rust_i0 isV8 ps) 1) = (reads, .ok vals)) :
    (runAsyncOp ctx isV8 ps (.syncFutRes f) args).calledInPrologue = true ∧
    (runAsyncOp ctx isV8 ps (.syncFutRes f) args).queued.isSome = true ∧
    (∀ e, f vals = .error e →
      runAsyncOp ctx isV8 ps (.syncFutRes f) args =
        ⟨none, reads, true, true,
          some (pid, ctx.id, .err (ctx.get_error_class_fn e) e), false⟩) ∧
    (∀ r, f vals = .ok r →
      runAsyncOp ctx isV8 ps (.syncFutRes f) args =
        ⟨none, reads, true, true,
          some (pid, ctx.id, to_op_result ctx.get_error_class_fn r), true⟩) := by
  cases hf : f vals with
  | error e0 =>
    have hrun : runAsyncOp ctx isV8 ps (.syncFutRes f) args =
        ⟨none, reads, true, true,
          some (pid, ctx.id, .err (ctx.get_error_class_fn e0) e0), false⟩ := by
      simp [runAsyncOp, hpid, hdec, hf, to_op_result]
    refine ⟨by rw [hrun], by rw [hrun]; rfl, fun e he => ?_, fun r hr => ?_⟩
    · injection he with h1
      subst h1
      exact hrun
    · exact absurd hr (by simp)
  | ok r0 =>
    have hrun : runAsyncOp ctx isV8 ps (.syncFutRes f) args =
        ⟨none, reads, true, true,
          some (pid, ctx.id, to_op_result ctx.get_error_class_fn r0), true⟩ := by
      simp [runAsyncOp, hpid, hdec, hf]
    refine ⟨by rw [hrun], by rw [hrun]; rfl, fun e he => ?_, fun r hr => ?_⟩
    · exact absurd he (by simp)
    · injection hr with h1
      subst h1
      exact hrun

/-- Witness for the amended C1 at a concrete erroring launch. -/
theorem c1_fallible_future_launch_witness :
    runAsyncOp ctxW false [] (.syncFutRes fun _ => .error "boom") [.vInt 42] =
      ⟨none, [], true, true, some (42, 7, .err "TypeError" "boom"), false⟩ := by
  have h := c1_fallible_future_launch ctxW false []
    (fun _ => .error "boom") [.vInt 42] 42 [] [] rfl rfl
  exact h.2.2.1 "boom" rfl

/-- C2: when the serialized parameter assigned dynamic position `idx`
fails to decode (and every decl before it succeeded), the generated
trampoline throws exactly the type error
`Error parsing args at position idx: err` — whose message contains the
position and the underlying decode error — and returns: the native
function is never invoked, nothing is tracked, the synchronous body
encodes and writes nothing, and the asynchronous body never hands
`queue_async_op` a task. -/
theorem c2_arg_decode_failure_aborts (ctx : OpCtx) (isV8 : Bool)
    (ps : List ParamModel) (impl : OpImpl) (output : String)
    (f : List NativeVal → SyncRet) (enc : NativeVal → Except String EncodedVal)
    (args : List V8Value) :
    (∀ (pid : Int) pre rest idx p r0 vs0 e,
      getArg args 0 = .vInt pid →
      codegen_args ps (rust_i0 isV8 ps) 1 = pre ++ (idx, p) :: rest →
      runArgDecls args pre = (r0, .ok vs0) →
      p.wild = false →
      p.dec (getArg args idx) = .error e →
      runAsyncOp ctx isV8 ps impl args =
        ⟨some (argErrMsg idx e), r0 ++ [idx], false, false, none, false⟩ ∧
      strContainsSub (argErrMsg idx e) (toString idx) = true ∧
      strContainsSub (argErrMsg idx e) e = true) ∧
    (∀ pre rest idx p r0 vs0 e,
      codegen_args ps (rust_i0 isV8 ps) 0 = pre ++ (idx, p) :: rest →
      runArgDecls args pre = (r0, .ok vs0) →
      p.wild = false →
      p.dec (getArg args idx) = .error e →
      runSyncOp ctx isV8 ps output f enc args =
        ⟨some (argErrMsg idx e), r0 ++ [idx], false, false, 0, none⟩ ∧
      strContainsSub (argErrMsg idx e) (toString idx) = true ∧
      strContainsSub (argErrMsg idx e) e = true) := by
  constructor
  · intro pid pre rest idx p r0 vs0 e hpid hsplit hok hw hd
    have hfail : runArgDecls args (codegen_args ps (rust_i0 isV8 ps) 1) =
        (r0 ++ [idx], .error (argErrMsg idx e)) := by
      rw [hsplit]
      exact runArgDeclsFail args pre idx p rest r0 vs0 e hok hw hd
    exact ⟨by simp [runAsyncOp, hpid, hfail], argErrMsgContainsIdx idx e,
      argErrMsgContainsErr idx e⟩
  · intro pre rest idx p r0 vs0 e hsplit hok hw hd
    have hfail : runArgDecls args (codegen_args ps (rust_i0 isV8 ps) 0) =
        (r0 ++ [idx], .error (argErrMsg idx e)) := by
      rw [hsplit]
      exact runArgDeclsFail args pre idx p rest r0 vs0 e hok hw hd
    exact ⟨by simp [runSyncOp, hfail], argErrMsgContainsIdx idx e,
      argErrMsgContainsErr idx e⟩

/-- Witness for C2: one always-failing serialized parameter, at
dynamic position 1 in the async body (integer promise id at slot 0)
and at position 0 in the sync body, where argument 0 is a non-integer
string whose decode fails. -/
theorem c2_arg_decode_failure_aborts_witness :
    runAsyncOp ctxW false [failParam] (.asyncPlain fun _ => .unit) [.vInt 5] =
      ⟨some (argErrMsg 1 "bad value"), [1], false, false, none, false⟩ ∧
    runSyncOp ctxW false [failParam] "-> u32" (fun _ => .plain .unit) encW [.vStr "zzz"] =
      ⟨some (argErrMsg 0 "bad value"), [0], false, false, 0, none⟩ := by
  have hA := c2_arg_decode_failure_aborts ctxW false [failParam]
    (.asyncPlain fun _ => .unit) "-> u32" (fun _ => .plain .unit) encW [.vInt 5]
  have hS := c2_arg_decode_failure_aborts ctxW false [failParam]
    (.asyncPlain fun _ => .unit) "-> u32" (fun _ => .plain .unit) encW [.vStr "zzz"]
  exact ⟨(hA.1 5 [] [] 1 failParam [] [] "bad value" rfl rfl rfl rfl rfl).1,
    (hS.2 [] [] 0 failParam [] [] "bad value" rfl rfl rfl rfl).1⟩

/-- C5: for a synchronous function whose return type is detected as
`Result<(), _>` (`is_unit_result`), a successful call performs no
serialization at all and writes nothing to the return-value slot, while
an `Err(e)` outcome wraps `e` through the op context
`get_error_class_fn` into a structured error object and encodes exactly
that object into the slot. -/
theorem c5_unit_result_encoding (ctx : OpCtx) (isV8 : Bool) (ps : List ParamModel)
    (output : String) (f : List NativeVal → SyncRet)
    (enc : NativeVal → Except String EncodedVal) (args : List V8Value)
    (reads : List Nat) (vals : List NativeVal)
    (hdec : runArgDecls args (codegen_args ps (rust_i0 isV8 ps) 0) = (reads, .ok vals))
    (hunit : is_unit_result output = true) :
    (f vals = .res (.ok .unit) →
      runSyncOp ctx isV8 ps output f enc args =
        ⟨none, reads, true, true, 0, none⟩) ∧
    (∀ e, f vals = .res (.error e) →
      runSyncOp ctx isV8 ps output f enc args =
        ⟨none, reads, true, true, 1,
          some (.errObj (ctx.get_error_class_fn e) e)⟩) := by
  obtain ⟨hres, hvoid⟩ := isUnitResultFacts hunit
  constructor
  · intro hf
    simp [runSyncOp, hdec, hf, codegen_sync_ret_run, hvoid, hres, hunit]
  · intro e hf
    simp [runSyncOp, hdec, hf, codegen_sync_ret_run, hvoid, hres]

/-- Witness for C5 at the concrete return type
`-> Result < () , AnyError >`: zero encodes on success, one encode of
the structured error on failure. -/
theorem c5_unit_result_encoding_witness :
    runSyncOp ctxW false [] "-> Result < () , AnyError >"
        (fun _ => .res (.ok .unit)) encW [] =
      ⟨none, [], true, true, 0, none⟩ ∧
    runSyncOp ctxW false [] "-> Result < () , AnyError >"
        (fun _ => .res (.error "boom")) encW [] =
      ⟨none, [], true, true, 1, some (.errObj "TypeError" "boom")⟩ := by
  refine ⟨?_, ?_⟩
  · exact (c5_unit_result_encoding ctxW false [] "-> Result < () , AnyError >"
      (fun _ => .res (.ok .unit)) encW [] [] [] rfl (by decide)).1 rfl
  · exact (c5_unit_result_encoding ctxW false [] "-> Result < () , AnyError >"
      (fun _ => .res (.error "boom")) encW [] [] [] rfl (by decide)).2 "boom" rfl

/-- C9: when the v8 option is absent and the first parameter is
HandleScope-shaped, the special-prefix scan stops at it immediately
(`scope_arg` is not even consulted and `opstate_arg` cannot match a
HandleScope shape, so the `map_while` closure yields `None` on the
first parameter): `rust_i0 = 0`, and `codegen_args` therefore treats
that parameter and every following one — OpState-shaped ones included —
as positional serialized arguments with dynamic indices `v8_i0 + i`. -/
theorem c9_handle_scope_without_v8 (p : ParamModel) (ps : List ParamModel)
    (v0 : Nat) (h : is_handle_scope p.tokens = true) :
    rust_i0 false (p :: ps) = 0 ∧
    codegen_args (p :: ps) (rust_i0 false (p :: ps)) v0 =
      codegen_args_decls v0 (p :: ps) := by
  have hnone : specialArgBinding false p = none := by
    obtain ⟨hm, hr⟩ := handleScopeNotOpstate p.tokens h
    simp [specialArgBinding, opstate_arg, hm, hr]
  have h0 : rust_i0 false (p :: ps) = 0 := by
    simp [rust_i0, special_args, mapWhileOpt, hnone]
  exact ⟨h0, by rw [codegen_args, h0, List.drop_zero]⟩

/-- Witness for C9: a HandleScope-shaped head followed by an
OpState-shaped parameter, both left in the positional tail. -/
theorem c9_handle_scope_without_v8_witness :
    rust_i0 false [scopeParam, opstateParam] = 0 ∧
    codegen_args [scopeParam, opstateParam]
        (rust_i0 false [scopeParam, opstateParam]) 0 =
      codegen_args_decls 0 [scopeParam, opstateParam] :=
  c9_handle_scope_without_v8 scopeParam [opstateParam] 0 (by decide)

end DenoOps
